import Mathlib

/-!
Verification of the devtools bridge in
`packages/react-native-mmkv/src/useMMKVDevTools.ts`.

The file shallowly embeds the hook's protocol layer: the JS values the
handlers exchange, the external MMKV store the handlers call into, the three
registered method handlers (`getAll`, `set`, `remove`), the dispatch wrapper
`on` that sends acknowledgements and error payloads, the `handleError`
callback wrapper, and the `useEffect` cleanup loop that releases the
recorded subscriptions.
-/

/-- A JavaScript number as observed by the bridge: `NaN`, the two infinities,
or a finite value.  Finite payloads are modelled as integers, which is all
the stringification in this development ever touches (`String(42) = "42"`). -/
inductive JsNum
  | nan
  | inf
  | neginf
  | finite (i : Int)
deriving DecidableEq

/-- `Number.isNaN`. -/
def JsNum.isNaN : JsNum → Bool
  | .nan => true
  | _ => false

/-- `Number.isFinite`. -/
def JsNum.isFinite : JsNum → Bool
  | .finite _ => true
  | _ => false

/-- JS `String(n)` on a number. -/
def JsNum.asString : JsNum → String
  | .nan => "NaN"
  | .inf => "Infinity"
  | .neginf => "-Infinity"
  | .finite i => toString i

/-- A JS `Error` instance: a `message` and an optional `stack`. -/
structure JsError where
  message : String
  stack : Option String
deriving DecidableEq

/-- The universe of JS values the bridge handles: handler results, message
payload fields and thrown failure values. -/
inductive JsValue
  | undefined
  | null
  | bool (b : Bool)
  | num (n : JsNum)
  | str (s : String)
  | err (e : JsError)
  | arr (xs : List JsValue)

/-- `v instanceof Error`. -/
def isJsError : JsValue → Bool
  | .err _ => true
  | _ => false

/-- `v === undefined || v === null`, the guard of nullish coalescing. -/
def isNullish : JsValue → Bool
  | .undefined => true
  | .null => true
  | _ => false

mutual

/-- JS `String(v)` conversion on the modelled values.  `Error` instances
stringify as `"Error: <message>"`; array elements join with `","`, with
`null`/`undefined` elements rendered empty, as `Array.prototype.toString`
does. -/
def jsString : JsValue → String
  | .undefined => "undefined"
  | .null => "null"
  | .bool b => if b then "true" else "false"
  | .num n => n.asString
  | .str s => s
  | .err e => if e.message = "" then "Error" else "Error: " ++ e.message
  | .arr xs => String.intercalate "," (jsStringList xs)

/-- Element-wise stringification used by the array case of `jsString`. -/
def jsStringList : List JsValue → List String
  | [] => []
  | x :: rest =>
    (match x with
     | .undefined => ""
     | .null => ""
     | v => jsString v) :: jsStringList rest

end

/-- A typed value held by the external MMKV store at one key: MMKV persists
strings, numbers and booleans; `vOpaque` stands for any further stored kind
(e.g. a buffer) that none of the three typed readers can see. -/
inductive StoredVal
  | vStr (s : String)
  | vNum (n : JsNum)
  | vBool (b : Bool)
  | vOpaque
deriving DecidableEq

/-- Model of the external MMKV store: keys in enumeration order, each bound
to one typed value.  The spec treats the store as an external collaborator
providing get/set/remove/list-keys; this realises those operations. -/
abbrev Store := List (String × StoredVal)

/-- Typed lookup: the value currently bound to `key`, if any. -/
def storeGet : Store → String → Option StoredVal
  | [], _ => none
  | (k, v) :: rest, key => if key = k then some v else storeGet rest key

/-- `storage.set(key, value)` with a string value: bind `key` to the string,
replacing any existing binding of any type, else append it. -/
def storeSet : Store → String → String → Store
  | [], key, v => [(key, .vStr v)]
  | (k, w) :: rest, key, v =>
    if k = key then (key, .vStr v) :: rest
    else (k, w) :: storeSet rest key v

/-- `storage.remove(key)`: drop every binding of `key`. -/
def storeRemove : Store → String → Store
  | [], _ => []
  | (k, w) :: rest, key =>
    if k = key then storeRemove rest key else (k, w) :: storeRemove rest key

/-- `storage.getAllKeys()` on the model: the keys in enumeration order. -/
def storeKeys (st : Store) : List String :=
  st.map (fun p => p.1)

/-- The raw read interface the `getAll` handler consumes: what each of the
four store calls returns.  `getAllKeysRet` is an `Option` because the code
guards `storage.getAllKeys() ?? []`. -/
structure StoreIface where
  getAllKeysRet : Option (List String)
  getStringRet : String → Option String
  getNumberRet : String → Option JsNum
  getBooleanRet : String → Option Bool

/-- The read interface presented by a modelled store: each typed reader
answers only for a key bound to a value of its own type. -/
def Store.iface (st : Store) : StoreIface where
  getAllKeysRet := some (storeKeys st)
  getStringRet := fun k =>
    match storeGet st k with
    | some (.vStr s) => some s
    | _ => none
  getNumberRet := fun k =>
    match storeGet st k with
    | some (.vNum n) => some n
    | _ => none
  getBooleanRet := fun k =>
    match storeGet st k with
    | some (.vBool b) => some b
    | _ => none

/-- The per-key body of the `getAll` handler: try `getString`; if undefined
and `getNumber` yields a number that is not `NaN`, stringify it; else if
`getBoolean` yields a boolean, stringify it; else the value is `undefined`. -/
def probeValue (si : StoreIface) (key : String) : JsValue :=
  match si.getStringRet key with
  | some s => .str s
  | none =>
    match si.getNumberRet key with
    | some n =>
      if n.isNaN then
        match si.getBooleanRet key with
        | some b => .str (jsString (.bool b))
        | none => .undefined
      else .str n.asString
    | none =>
      match si.getBooleanRet key with
      | some b => .str (jsString (.bool b))
      | none => .undefined

/-- The rows built by the `getAll` handler:
`(storage.getAllKeys() ?? []).map(key => [key, …])`. -/
def getAllRows (si : StoreIface) : List JsValue :=
  ((si.getAllKeysRet).getD []).map (fun key => .arr [.str key, probeValue si key])

/-- The `getAll` handler's result: the array of per-key rows. -/
def getAllHandler (si : StoreIface) : JsValue :=
  .arr (getAllRows si)

/-- The `params` object of an inbound message: both fields optional. -/
structure MsgParams where
  key : Option String
  value : Option String
deriving DecidableEq

/-- The `set` handler: if `key` and `value` are both defined, write and
answer `true`; otherwise leave the store alone and answer `false`. -/
def setHandler (st : Store) (p : MsgParams) : Store × JsValue :=
  match p.key, p.value with
  | some k, some v => (storeSet st k v, .bool true)
  | _, _ => (st, .bool false)

/-- The `remove` handler: if `key` is defined, remove it and answer `true`;
otherwise leave the store alone and answer `false`. -/
def removeHandler (st : Store) (p : MsgParams) : Store × JsValue :=
  match p.key with
  | some k => (storeRemove st k, .bool true)
  | none => (st, .bool false)

/-- `handleError`: wrap a failure value so the caller-supplied callback
always receives an `Error` instance (`error instanceof Error ? error :
new Error(String(error))`).  The stack of a freshly constructed wrapper is
environment-supplied and modelled as absent. -/
def handleError (e : JsValue) : JsError :=
  match e with
  | .err eo => eo
  | v => ⟨jsString v, none⟩

/-- The serializable error payload built in the catch block of `on`:
`error instanceof Error ? { message, stack } : { message: String(error) }`. -/
def serializeError (e : JsValue) : String × Option String :=
  match e with
  | .err eo => (eo.message, eo.stack)
  | v => (jsString v, none)

/-- `result ?? true`: the acknowledgement default coercion. -/
def ackValue (v : JsValue) : JsValue :=
  match v with
  | .undefined => .bool true
  | .null => .bool true
  | v => v

/-- How one invocation of a registered listener ends: the handler's promise
resolves with a value, or it throws/rejects with a failure value. -/
inductive Outcome
  | ok (v : JsValue)
  | fail (e : JsValue)

/-- A transport channel: the per-method acknowledgement channel
(`"ack:" ++ method` on the wire) or the dedicated `"error"` channel. -/
inductive Channel
  | ack (method : String)
  | error
deriving DecidableEq

/-- A payload handed to `client.sendMessage`: an acknowledgement
`{ result: … }` or an error `{ message, stack? }`. -/
inductive Payload
  | ackP (result : JsValue)
  | errP (message : String) (stack : Option String)

/-- An observable step of the bridge: a send attempt on a channel (`ok`
records whether the transport send succeeded), a handler invocation, a
subscription release attempt, or an invocation of the caller-supplied
error callback. -/
inductive Event
  | send (ch : Channel) (p : Payload) (ok : Bool)
  | invoke (method : String)
  | release (id : Nat) (ok : Bool)
  | callback (e : JsError)

/-- The event is a send on some acknowledgement channel. -/
def isAckSend : Event → Bool
  | .send (.ack _) _ _ => true
  | _ => false

/-- The event is a send on the error channel. -/
def isErrSend : Event → Bool
  | .send .error _ _ => true
  | _ => false

/-- The event is an invocation of the caller-supplied error callback. -/
def isCallback : Event → Bool
  | .callback _ => true
  | _ => false

/-- The trace of the listener wrapper installed by `on` for one inbound
message, given how the handler ended.  On resolution the acknowledgement
is sent on the method's channel with the coerced result; on failure the
serialized payload is sent on the error channel (`errSendOk` records
whether that send succeeded — the code's `try … finally` runs
`handleError` either way, and a failed send aborts nothing further).
The transport's acknowledgement send is modelled as non-throwing; the spec
scopes send faults to the error-payload send. -/
def dispatch (event : String) (o : Outcome) (errSendOk : Bool) : List Event :=
  match o with
  | .ok v => [.send (.ack event) (.ackP (ackValue v)) true]
  | .fail e =>
    [.send .error (.errP (serializeError e).1 (serializeError e).2) errSendOk,
     .callback (handleError e)]

/-- The method names the bridge registers listeners for (the spec's
`list`/`write`/`delete` operations carry the wire names `getAll`/`set`/
`remove`). -/
def registeredMethods : List String := ["getAll", "set", "remove"]

/-- One inbound message processed by the active bridge: the transport
dispatches it to the listener registered under its name, if any.  The three
modelled handlers never throw (the modelled store is total), so each runs
the `Outcome.ok` path of `dispatch`; an unmatched name reaches no listener
at all. -/
def handleMessage (st : Store) (name : String) (p : MsgParams) (errSendOk : Bool) :
    Store × List Event :=
  if name = "getAll" then
    (st, .invoke "getAll" :: dispatch "getAll" (.ok (getAllHandler st.iface)) errSendOk)
  else if name = "set" then
    ((setHandler st p).1, .invoke "set" :: dispatch "set" (.ok (setHandler st p).2) errSendOk)
  else if name = "remove" then
    ((removeHandler st p).1, .invoke "remove" :: dispatch "remove" (.ok (removeHandler st p).2) errSendOk)
  else (st, [])

/-- The `useEffect` cleanup: for each recorded subscription, attempt
`sub.remove()` inside `try … catch (e) { handleError(e) }`.  A subscription
is modelled as its identity together with what its `remove()` does:
`none` means it returns normally, `some e` means it throws `e`. -/
def teardown : List (Nat × Option JsValue) → List Event
  | [] => []
  | (id, none) :: rest => .release id true :: teardown rest
  | (id, some e) :: rest => .release id false :: .callback (handleError e) :: teardown rest

/-- The release attempts of a trace, in order. -/
def releaseIds : List Event → List Nat
  | [] => []
  | .release id _ :: rest => id :: releaseIds rest
  | _ :: rest => releaseIds rest

/-- The error-callback invocations of a trace, in order. -/
def callbackErrs : List Event → List JsError
  | [] => []
  | .callback e :: rest => e :: callbackErrs rest
  | _ :: rest => callbackErrs rest

/-- The per-key probe as the spec words it, differing from `probeValue` only
in the numeric guard: the numeric probe succeeds exactly when the numeric
read yields a *finite* number. -/
def probeValueFiniteSpec (si : StoreIface) (key : String) : JsValue :=
  match si.getStringRet key with
  | some s => .str s
  | none =>
    match si.getNumberRet key with
    | some n =>
      if n.isFinite then .str n.asString
      else
        match si.getBooleanRet key with
        | some b => .str (jsString (.bool b))
        | none => .undefined
    | none =>
      match si.getBooleanRet key with
      | some b => .str (jsString (.bool b))
      | none => .undefined

/-- A store interface whose single key `"k"` answers only the numeric read,
with `Infinity`. -/
def infinityIface : StoreIface :=
  ⟨some ["k"], fun _ => none, fun _ => some .inf, fun _ => none⟩

/-! ## Store lemmas -/

/-- Observational effect of `storage.set`: the written key now reads as the
written string, every other key is untouched. -/
theorem storeGet_storeSet (st : Store) (key v k2 : String) :
    storeGet (storeSet st key v) k2 =
      if k2 = key then some (.vStr v) else storeGet st k2 := by
  induction st with
  | nil =>
    by_cases h : k2 = key <;> simp [storeSet, storeGet, h]
  | cons p rest ih =>
    obtain ⟨k0, w⟩ := p
    by_cases h0 : k0 = key
    · subst h0
      by_cases h1 : k2 = k0 <;> simp [storeSet, storeGet, h1]
    · by_cases h1 : k2 = key
      · subst h1
        have h2 : ¬ k2 = k0 := fun hh => h0 hh.symm
        simp [storeSet, storeGet, h0, h2, ih]
      · by_cases h2 : k2 = k0
        · subst h2
          simp [storeSet, storeGet, h0, h1, ih]
        · simp [storeSet, storeGet, h0, h1, h2, ih]

/-- Observational effect of `storage.remove`: the removed key reads as
absent, every other key is untouched. -/
theorem storeGet_storeRemove (st : Store) (key k2 : String) :
    storeGet (storeRemove st key) k2 =
      if k2 = key then none else storeGet st k2 := by
  induction st with
  | nil => by_cases h : k2 = key <;> simp [storeRemove, storeGet, h]
  | cons p rest ih =>
    obtain ⟨k0, w⟩ := p
    by_cases h0 : k0 = key
    · subst h0
      by_cases h1 : k2 = k0
      · subst h1
        simp [storeRemove, storeGet, ih]
      · simp [storeRemove, storeGet, h1, ih]
    · by_cases h1 : k2 = key
      · subst h1
        have h2 : ¬ k2 = k0 := fun hh => h0 hh.symm
        simp [storeRemove, storeGet, h0, h2, ih]
      · by_cases h2 : k2 = k0
        · subst h2
          simp [storeRemove, storeGet, h0, h1, ih]
        · simp [storeRemove, storeGet, h0, h1, h2, ih]

/-! ## Claim theorems -/

/-- C2: for the `set` (spec: `write`) operation, a params object missing
`key` or `value` leaves the store unchanged and yields `false` without
raising; with both present, the string value is written verbatim to that
key, overwriting any existing value of any type, and the result is `true`. -/
theorem write_semantics (st : Store) (p : MsgParams) :
    (p.key = none ∨ p.value = none → setHandler st p = (st, .bool false)) ∧
    (∀ k v, p.key = some k → p.value = some v →
      (setHandler st p).2 = .bool true ∧
      ∀ k2, storeGet (setHandler st p).1 k2 =
        if k2 = k then some (.vStr v) else storeGet st k2) := by
  obtain ⟨pk, pv⟩ := p
  constructor
  · rintro (h | h)
    · subst h
      cases pv <;> rfl
    · subst h
      cases pk <;> rfl
  · rintro k v hk hv
    subst hk
    subst hv
    exact ⟨rfl, fun k2 => storeGet_storeSet st k v k2⟩

/-- Witness for C2 at a store holding a boolean under `"a"`: a write missing
`value` changes nothing and answers `false`; a complete write overwrites the
boolean with the string and answers `true`. -/
theorem write_semantics_wit :
    setHandler [("a", .vBool true)] ⟨some "a", none⟩ = ([("a", .vBool true)], .bool false) ∧
    (setHandler [("a", .vBool true)] ⟨some "a", some "x"⟩).2 = .bool true ∧
    storeGet (setHandler [("a", .vBool true)] ⟨some "a", some "x"⟩).1 "a" = some (.vStr "x") := by
  refine ⟨(write_semantics [("a", .vBool true)] ⟨some "a", none⟩).1 (Or.inr rfl),
    ((write_semantics [("a", .vBool true)] ⟨some "a", some "x"⟩).2 "a" "x" rfl rfl).1, ?_⟩
  have h := ((write_semantics [("a", .vBool true)] ⟨some "a", some "x"⟩).2 "a" "x" rfl rfl).2 "a"
  simpa using h

/-- C3: for the `remove` (spec: `delete`) operation, a params object missing
`key` leaves the store unchanged and yields `false`; with `key` present the
key is removed and the result is `true`, also when the key did not exist,
and the key reads as absent afterwards. -/
theorem delete_semantics (st : Store) (p : MsgParams) :
    (p.key = none → removeHandler st p = (st, .bool false)) ∧
    (∀ k, p.key = some k →
      (removeHandler st p).2 = .bool true ∧
      (∀ k2, storeGet (removeHandler st p).1 k2 =
        if k2 = k then none else storeGet st k2) ∧
      (storeGet st k = none → (removeHandler st p).1 = st)) := by
  obtain ⟨pk, pv⟩ := p
  constructor
  · rintro h
    subst h
    rfl
  · rintro k hk
    subst hk
    refine ⟨rfl, fun k2 => storeGet_storeRemove st k k2, ?_⟩
    simp only [removeHandler]
    intro habs
    induction st with
    | nil => rfl
    | cons q rest ih =>
      obtain ⟨k0, w⟩ := q
      by_cases h0 : k0 = k
      · subst h0
        simp [storeGet] at habs
      · have hne : ¬ k = k0 := fun hh => h0 hh.symm
        simp only [storeGet, if_neg hne] at habs
        simp [storeRemove, h0, ih habs]

/-- Witness for C3: removing from a store that never held `"k"` answers
`true` and leaves the one-entry store untouched; a keyless delete changes
nothing and answers `false`. -/
theorem delete_semantics_wit :
    removeHandler [("a", .vStr "1")] ⟨none, none⟩ = ([("a", .vStr "1")], .bool false) ∧
    (removeHandler [("a", .vStr "1")] ⟨some "k", none⟩).2 = .bool true ∧
    (removeHandler [("a", .vStr "1")] ⟨some "k", none⟩).1 = [("a", .vStr "1")] ∧
    storeGet (removeHandler [("a", .vStr "1")] ⟨some "k", none⟩).1 "k" = none := by
  refine ⟨(delete_semantics [("a", .vStr "1")] ⟨none, none⟩).1 rfl,
    ((delete_semantics [("a", .vStr "1")] ⟨some "k", none⟩).2 "k" rfl).1,
    ((delete_semantics [("a", .vStr "1")] ⟨some "k", none⟩).2 "k" rfl).2.2 (by decide), ?_⟩
  have h := ((delete_semantics [("a", .vStr "1")] ⟨some "k", none⟩).2 "k" rfl).2.1 "k"
  simpa using h

/-- A successful typed lookup means the key occurs in the enumeration. -/
theorem mem_storeKeys_of_storeGet (st : Store) (k : String) (w : StoredVal)
    (h : storeGet st k = some w) : k ∈ storeKeys st := by
  induction st with
  | nil => simp [storeGet] at h
  | cons p rest ih =>
    obtain ⟨k0, w0⟩ := p
    by_cases h0 : k = k0
    · subst h0
      simp [storeKeys]
    · simp only [storeGet, if_neg h0] at h
      simp [storeKeys] at ih ⊢
      exact Or.inr (ih h)

/-- C4 counterexample: on a store interface whose key `"k"` answers only the
numeric read, with `Infinity`, the code's probe reports the stringified
number even though `Infinity` is not finite — the probe as the spec words it
(success exactly on a finite numeric read) reports the value as absent, so
the two disagree. -/
theorem numeric_probe_counterexample :
    probeValue infinityIface "k" = .str "Infinity" ∧
    probeValueFiniteSpec infinityIface "k" = .undefined ∧
    JsNum.isFinite .inf = false ∧
    getAllHandler infinityIface = .arr [.arr [.str "k", .str "Infinity"]] := by
  exact ⟨rfl, rfl, rfl, rfl⟩

/-- C4 (amended): the `getAll` handler enumerates the keys returned by the
store in enumeration order (an absent key list is treated as empty), each
value decided by probing string → number → boolean, first success winning;
the numeric probe succeeds exactly when the numeric read yields a number
that is not `NaN` (so the infinities also succeed and are stringified); a
key failing all three probes is reported as a `(key, undefined)` row, not an
error. -/
theorem list_enumeration (si : StoreIface) :
    getAllHandler si =
      .arr (((si.getAllKeysRet).getD []).map
        (fun key => .arr [.str key, probeValue si key])) ∧
    (si.getAllKeysRet = none → getAllHandler si = .arr []) ∧
    ∀ key,
      (∀ s, si.getStringRet key = some s → probeValue si key = .str s) ∧
      (∀ n, si.getStringRet key = none → si.getNumberRet key = some n →
        n.isNaN = false → probeValue si key = .str n.asString) ∧
      (∀ b, si.getStringRet key = none →
        (si.getNumberRet key = none ∨
          ∃ n, si.getNumberRet key = some n ∧ n.isNaN = true) →
        si.getBooleanRet key = some b →
        probeValue si key = .str (if b then "true" else "false")) ∧
      (si.getStringRet key = none →
        (si.getNumberRet key = none ∨
          ∃ n, si.getNumberRet key = some n ∧ n.isNaN = true) →
        si.getBooleanRet key = none → probeValue si key = .undefined) := by
  refine ⟨rfl, ?_, ?_⟩
  · intro h
    simp [getAllHandler, getAllRows, h]
  · intro key
    refine ⟨?_, ?_, ?_, ?_⟩
    · intro s hs
      simp [probeValue, hs]
    · intro n hs hn hnan
      simp [probeValue, hs, hn, hnan]
    · rintro b hs (hn | ⟨n, hn, hnan⟩) hb
      · simp [probeValue, hs, hn, hb, jsString]
      · simp [probeValue, hs, hn, hb, jsString, hnan]
    · rintro hs (hn | ⟨n, hn, hnan⟩) hb
      · simp [probeValue, hs, hn, hb]
      · simp [probeValue, hs, hn, hb, hnan]

/-- Witness for C4 (amended): a three-entry store interface exercising the
string probe, the `NaN`-falls-through-to-boolean path, and the all-probes-
fail row. -/
theorem list_enumeration_wit :
    probeValue (⟨some ["a"], fun _ => some "s", fun _ => some .nan, fun _ => some true⟩ :
      StoreIface) "a" = .str "s" ∧
    probeValue (⟨some ["a"], fun _ => none, fun _ => some .nan, fun _ => some true⟩ :
      StoreIface) "a" = .str "true" ∧
    probeValue (⟨some ["a"], fun _ => none, fun _ => none, fun _ => none⟩ :
      StoreIface) "a" = .undefined ∧
    getAllHandler (⟨none, fun _ => none, fun _ => none, fun _ => none⟩ : StoreIface) =
      .arr [] := by
  refine ⟨((list_enumeration _).2.2 "a").1 "s" rfl, ?_, ?_, (list_enumeration _).2.1 rfl⟩
  · have h := ((list_enumeration
      (⟨some ["a"], fun _ => none, fun _ => some .nan, fun _ => some true⟩ :
        StoreIface)).2.2 "a").2.2.1 true rfl (Or.inr ⟨.nan, rfl, rfl⟩) rfl
    simpa using h
  · exact ((list_enumeration _).2.2 "a").2.2.2 rfl (Or.inl rfl) rfl

/-- C5: a key stored as the number `42` is reported by the `getAll` rows as
the string `"42"`, and a key stored as the boolean `true` as the string
`"true"`: typed values flatten to their string form on read. -/
theorem list_roundtrip_typed (st : Store) (k : String) :
    (storeGet st k = some (.vNum (.finite 42)) →
      probeValue st.iface k = .str "42" ∧
      .arr [.str k, .str "42"] ∈ getAllRows st.iface) ∧
    (storeGet st k = some (.vBool true) →
      probeValue st.iface k = .str "true" ∧
      .arr [.str k, .str "true"] ∈ getAllRows st.iface) := by
  constructor
  · intro h
    have hp : probeValue st.iface k = .str "42" := by
      simp [probeValue, Store.iface, h, JsNum.isNaN, JsNum.asString]
      rfl
    refine ⟨hp, ?_⟩
    have hk : k ∈ storeKeys st := mem_storeKeys_of_storeGet st k _ h
    have hm : JsValue.arr [.str k, probeValue st.iface k] ∈ getAllRows st.iface :=
      List.mem_map_of_mem (fun key => JsValue.arr [.str key, probeValue st.iface key]) hk
    rw [hp] at hm
    exact hm
  · intro h
    have hp : probeValue st.iface k = .str "true" := by
      simp [probeValue, Store.iface, h, jsString]
    refine ⟨hp, ?_⟩
    have hk : k ∈ storeKeys st := mem_storeKeys_of_storeGet st k _ h
    have hm : JsValue.arr [.str k, probeValue st.iface k] ∈ getAllRows st.iface :=
      List.mem_map_of_mem (fun key => JsValue.arr [.str key, probeValue st.iface key]) hk
    rw [hp] at hm
    exact hm

/-- Witness for C5 at the two-entry store `[("n", 42), ("b", true)]`. -/
theorem list_roundtrip_typed_wit :
    probeValue (Store.iface [("n", .vNum (.finite 42)), ("b", .vBool true)]) "n" =
      .str "42" ∧
    probeValue (Store.iface [("n", .vNum (.finite 42)), ("b", .vBool true)]) "b" =
      .str "true" := by
  exact ⟨((list_roundtrip_typed [("n", .vNum (.finite 42)), ("b", .vBool true)] "n").1
      (by decide)).1,
    ((list_roundtrip_typed [("n", .vNum (.finite 42)), ("b", .vBool true)] "b").2
      (by decide)).1⟩

/-- C1: for each invocation of a registered listener, exactly one terminal
action occurs exactly once: a resolving handler yields a single send, the
acknowledgement on the channel correlated to the method name with the
handler's (coerced) result; a throwing/rejecting handler yields a single
error-channel send followed — whether or not that send succeeded
(`errSendOk` arbitrary) — by a single invocation of the error callback. -/
theorem dispatch_one_terminal (event : String) (o : Outcome) (errSendOk : Bool) :
    (∀ v, o = .ok v →
      dispatch event o errSendOk = [.send (.ack event) (.ackP (ackValue v)) true] ∧
      (dispatch event o errSendOk).countP isAckSend = 1 ∧
      (dispatch event o errSendOk).countP isErrSend = 0 ∧
      (dispatch event o errSendOk).countP isCallback = 0) ∧
    (∀ e, o = .fail e →
      dispatch event o errSendOk =
        [.send .error (.errP (serializeError e).1 (serializeError e).2) errSendOk,
         .callback (handleError e)] ∧
      (dispatch event o errSendOk).countP isAckSend = 0 ∧
      (dispatch event o errSendOk).countP isErrSend = 1 ∧
      (dispatch event o errSendOk).countP isCallback = 1) := by
  constructor
  · rintro v rfl
    refine ⟨rfl, ?_, ?_, ?_⟩ <;> simp [dispatch, isAckSend, isErrSend, isCallback]
  · rintro e rfl
    refine ⟨rfl, ?_, ?_, ?_⟩ <;> simp [dispatch, isAckSend, isErrSend, isCallback]

/-- Witness for C1: a resolving `getAll`-style invocation acknowledges once;
a rejecting invocation whose error-channel send fails still reaches the
error callback, after the send attempt. -/
theorem dispatch_one_terminal_wit :
    dispatch "getAll" (.ok .undefined) true =
      [.send (.ack "getAll") (.ackP (.bool true)) true] ∧
    dispatch "set" (.fail (.str "boom")) false =
      [.send .error (.errP "boom" none) false, .callback ⟨"boom", none⟩] := by
  constructor
  · exact ((dispatch_one_terminal "getAll" (.ok .undefined) true).1 .undefined rfl).1
  · have h := ((dispatch_one_terminal "set" (.fail (.str "boom")) false).2
      (.str "boom") rfl).1
    simpa [serializeError, handleError, jsString] using h

/-- C6: the payload sent on the error channel is `{ message, stack }` for an
`Error` failure and `{ message: String(failure) }` with no stack for any
other failure value. -/
theorem error_payload_shape (event : String) (e : JsValue) (errSendOk : Bool) :
    dispatch event (.fail e) errSendOk =
      [.send .error
        (match e with
         | .err eo => .errP eo.message eo.stack
         | v => .errP (jsString v) none) errSendOk,
       .callback (handleError e)] := by
  cases e <;> rfl

/-- C7: teardown releases every recorded subscription exactly once, in
order; a throwing release is caught and forwarded to the error callback and
the remaining subscriptions are still released. -/
theorem teardown_releases_every (subs : List (Nat × Option JsValue)) :
    releaseIds (teardown subs) = subs.map (fun s => s.1) ∧
    callbackErrs (teardown subs) = (subs.filterMap (fun s => s.2)).map handleError := by
  induction subs with
  | nil => exact ⟨rfl, rfl⟩
  | cons s rest ih =>
    obtain ⟨id, ex⟩ := s
    cases ex with
    | none =>
      simp [teardown, releaseIds, callbackErrs, ih.1, ih.2]
    | some e =>
      simp [teardown, releaseIds, callbackErrs, ih.1, ih.2]

/-- C8 counterexample: the method name `"getAll"` lies outside the claimed
registered set `{list, write, delete}` yet the active bridge invokes its
handler and sends an acknowledgement for it. -/
theorem registry_name_counterexample :
    ("getAll" ∉ (["list", "write", "delete"] : List String)) ∧
    (handleMessage [] "getAll" ⟨none, none⟩ true).2 =
      [.invoke "getAll", .send (.ack "getAll") (.ackP (.arr [])) true] := by
  constructor
  · decide
  · rfl

/-- C8 (amended): the fixed registered set carries the wire names `getAll`,
`set`, `remove` (the operations the spec calls `list`, `write`, `delete`);
for every inbound method name outside that set no handler is invoked, no
acknowledgement or error payload is sent, and the store is untouched. -/
theorem unregistered_method_silent (st : Store) (name : String) (p : MsgParams)
    (b : Bool) (h : name ∉ registeredMethods) :
    handleMessage st name p b = (st, []) := by
  have h1 : ¬ name = "getAll" := fun hh => h (by simp [registeredMethods, hh])
  have h2 : ¬ name = "set" := fun hh => h (by simp [registeredMethods, hh])
  have h3 : ¬ name = "remove" := fun hh => h (by simp [registeredMethods, hh])
  simp [handleMessage, h1, h2, h3]

/-- Witness for C8 (amended): the spec-side name `"list"` itself reaches no
listener on the wire. -/
theorem unregistered_method_silent_wit :
    handleMessage [] "list" ⟨none, none⟩ true = ([], []) :=
  unregistered_method_silent [] "list" ⟨none, none⟩ true (by decide)

/-- C9: the acknowledgement default coercion fires exactly on the nullish
results `undefined` and `null`, which are acknowledged as `{ result: true }`;
every other result — `false` included — is forwarded unchanged. -/
theorem ack_default_coercion (event : String) (v : JsValue) (errSendOk : Bool) :
    dispatch event (.ok v) errSendOk =
      [.send (.ack event) (.ackP (if isNullish v then .bool true else v)) true] := by
  cases v <;> rfl

/-- C10: the caller-supplied error callback always receives an `Error`
instance (the codomain of `handleError`): an `Error` failure is passed
through, any other failure is wrapped with its string conversion as the
message; both the dispatch failure path and the teardown path invoke the
callback with exactly that wrapping. -/
theorem error_callback_wrapped (e : JsValue) :
    (isJsError e = false → handleError e = ⟨jsString e, none⟩) ∧
    (∀ eo, e = .err eo → handleError e = eo) ∧
    (∀ (event : String) (b : Bool),
      (dispatch event (.fail e) b).countP isCallback = 1 ∧
      Event.callback (handleError e) ∈ dispatch event (.fail e) b) ∧
    (∀ id : Nat, teardown [(id, some e)] =
      [.release id false, .callback (handleError e)]) := by
  refine ⟨?_, ?_, ?_, ?_⟩
  · intro h
    cases e <;> simp_all [isJsError, handleError]
  · rintro eo rfl
    rfl
  · intro event b
    refine ⟨by simp [dispatch, isCallback], ?_⟩
    exact List.mem_cons_of_mem _ (List.mem_singleton_self _)
  · intro id
    rfl

/-- Witness for C10: a non-`Error` failure (`NaN`) is wrapped as
`Error("NaN")`, an `Error` failure passes through, and a teardown release
throwing `true` reaches the callback as `Error("true")`. -/
theorem error_callback_wrapped_wit :
    handleError (.num .nan) = ⟨"NaN", none⟩ ∧
    handleError (.err ⟨"m", some "s"⟩) = ⟨"m", some "s"⟩ ∧
    teardown [(0, some (.bool true))] = [.release 0 false, .callback ⟨"true", none⟩] := by
  refine ⟨?_, (error_callback_wrapped (.err ⟨"m", some "s"⟩)).2.1 ⟨"m", some "s"⟩ rfl, ?_⟩
  · have h := (error_callback_wrapped (.num .nan)).1 rfl
    simpa [jsString, JsNum.asString] using h
  · have h := (error_callback_wrapped (.bool true)).2.2.2 0
    simpa [handleError, jsString] using h
